import Mathlib

/-!
Verification of bin/download_proteins_entrez.py from qbic-pipelines/metapep.

The script is a sequential pipeline: parse per-microbiome taxon/abundance
tables, link taxa to assemblies, pick one assembly per taxon, link assemblies
to nucleotide sequences and sequences to proteins, dedup proteins, fetch
accessions and FASTA records, and emit four tab-separated output tables.

The embedding below mirrors the script statement by statement:

* Python dicts (which preserve insertion order) are association lists with
  an update-in-place-or-append insert (dictInsert / abInsert).
* Python lists that are shared by reference (dict_seqId_assemblyIds values
  are assigned, not copied, into dict_proteinId_assemblyIds) live in an
  explicit heap of cells; both dicts then map keys to cell indices.
* Machine-level remote calls are an environment: each retry block consumes
  a stream of per-attempt outcomes (HTTP status code on failure, parsed
  payload on success).
* Fallible Python operations (indexing, dict lookup, float plus str) return
  Except values; an uncaught exception or sys.exit ends the run with the
  outputs that were already flushed.
* Abundances: with a two-column header the script stores the csv field as a
  str; otherwise it stores the int 1.  Weight accumulation starts from the
  float 0.0; adding an int keeps an exact small-integer value (modelled as
  Int), adding a str raises TypeError.
-/

namespace Metapep

/-- Python exception classes that the script can raise. -/
inductive PyExc where
  | stopIteration
  | indexError
  | keyError
  | typeError
  | valueError
  | httpError (code : Nat)
deriving DecidableEq, Repr

/-- How a run of main terminates: normal completion, sys.exit with a message,
or an uncaught Python exception. -/
inductive Term where
  | done
  | exit (msg : String)
  | exc (e : PyExc)
deriving DecidableEq, Repr

/-- A value stored in dic_taxId_microbiomeId_abundance: the script stores the
raw csv field (a Python str) when the header has two columns, and the Python
int 1 otherwise (lines 111-115 of the script). -/
inductive AbVal where
  | str (s : String)
  | int (n : Int)
deriving DecidableEq, Repr

/-- One record of an Entrez.elink result list: IdList (echo of a queried id)
and LinkSetDb, where each LinkSetDb entry carries its Link id list. -/
structure TaxRecord where
  idList : List String
  linkSetDb : List (List String)
deriving DecidableEq, Repr

deriving instance DecidableEq for Except

/-- Python list indexing: l[i], raising IndexError when out of range. -/
def pyIdx {α : Type} (l : List α) (i : Nat) : Except PyExc α :=
  match l[i]? with
  | some a => .ok a
  | none => .error .indexError

/-- Lookup in an insertion-ordered dict modelled as an association list. -/
def pyLookup {β : Type} : List (String × β) → String → Option β
  | [], _ => none
  | (k2, v) :: rest, k => if k2 = k then some v else pyLookup rest k

/-- Python dict assignment d[k] = v: update the existing entry in place
(order preserved) or append a new entry at the end. -/
def dictInsert {β : Type} : List (String × β) → String → β → List (String × β)
  | [], k, v => [(k, v)]
  | (k2, v2) :: rest, k, v =>
    if k2 = k then (k2, v) :: rest else (k2, v2) :: dictInsert rest k v

/-- Remove an entry from an association list (used to state that a dropped
taxon never influences weights). -/
def eraseKey {β : Type} (m : List (String × β)) (k : String) : List (String × β) :=
  m.filter (fun e => e.1 ≠ k)

/-- Nested abundance map dic_taxId_microbiomeId_abundance, a
defaultdict(lambda : dict()) keyed by taxId then microbiomeId. -/
abbrev AbMap : Type := List (String × List (String × AbVal))

/-- dic_taxId_microbiomeId_abundance[t][mb] = v with defaultdict semantics:
a missing taxId entry is created on access. -/
def abInsert (m : AbMap) (t mb : String) (v : AbVal) : AbMap :=
  match pyLookup m t with
  | none => m ++ [(t, [(mb, v)])]
  | some inner => dictInsert m t (dictInsert inner mb v)

/-- Python str comparison: lexicographic on the code-point sequences. -/
def strLtb : List Char → List Char → Bool
  | [], [] => false
  | [], _ :: _ => true
  | _ :: _, [] => false
  | c :: cs, d :: ds =>
    if c.toNat < d.toNat then true
    else if d.toNat < c.toNat then false
    else strLtb cs ds

/-- Python operator less-than on str values. -/
def pyStrLt (a b : String) : Bool := strLtb a.data b.data

/-- Python max over a list of str values: lexicographic comparison by code
point; the first element of the list wins ties (strict greater-than test). -/
def pyMaxStr : List String → Option String
  | [] => none
  | x :: xs => some (xs.foldl (fun m y => if pyStrLt m y then y else m) x)

/-- Numeric value of a decimal digit string, used to compare the recorded
total_length values as numbers. -/
def digitsToNat (s : String) : Nat :=
  s.data.foldl (fun n c => 10 * n + (c.toNat - 48)) 0

/-- Outcome of one of the six identical retry blocks of the script. -/
inductive RetryResult (α : Type) where
  | ok (a : α)
  | raised (code : Nat)
  | exhausted
deriving DecidableEq, Repr

/-- The body of the retry loop, shared verbatim by all six remote calls
(get_assembly_length lines 60-74 and the five blocks in main): try the
attempt; on success sleep 1 second and stop; on an HTTPError with a code in
500..599 sleep 10 seconds and move to the next attempt; on any other
HTTPError re-raise.  The second component records the sleeps performed. -/
def retryFrom {α : Type} (outcomes : Nat → Except Nat α) :
    Nat → Nat → List Nat → RetryResult α × List Nat
  | _, 0, sleeps => (.exhausted, sleeps)
  | attempt, fuel + 1, sleeps =>
    match outcomes attempt with
    | .ok a => (.ok a, sleeps ++ [1])
    | .error c =>
      if 500 ≤ c ∧ c ≤ 599 then
        retryFrom outcomes (attempt + 1) fuel (sleeps ++ [10])
      else
        (.raised c, sleeps)

/-- for attempt in range(3): the retry loop with 3 attempts total. -/
def retryLoop {α : Type} (outcomes : Nat → Except Nat α) : RetryResult α × List Nat :=
  retryFrom outcomes 0 3 []

/-- The row loop of the input reader (script lines 111-115): for each csv
row, store row[1] verbatim when the header had exactly two fields, and the
int 1 otherwise.  Python evaluates the right-hand side first, so row[1] is
read before row[0] in the two-field case. -/
def parseRows (hlen : Nat) (mb : String) : List (List String) → AbMap → Except Term AbMap
  | [], acc => .ok acc
  | row :: rest, acc =>
    if hlen = 2 then
      match pyIdx row 1 with
      | .error e => .error (.exc e)
      | .ok v =>
        match pyIdx row 0 with
        | .error e => .error (.exc e)
        | .ok t => parseRows hlen mb rest (abInsert acc t mb (.str v))
    else
      match pyIdx row 0 with
      | .error e => .error (.exc e)
      | .ok t => parseRows hlen mb rest (abInsert acc t mb (.int 1))

/-- The input-file loop (script lines 104-115): each file is paired with a
microbiome id; header = next(reader) raises StopIteration on an empty file;
the validation compares header[0] with the literal string taxid and exits
with the format message otherwise; then the rows are read. -/
def parseFiles : List (List (List String) × String) → AbMap → Except Term AbMap
  | [], acc => .ok acc
  | (rows, mb) :: rest, acc =>
    match rows with
    | [] => .error (.exc .stopIteration)
    | header :: dataRows =>
      match pyIdx header 0 with
      | .error e => .error (.exc e)
      | .ok h0 =>
        if h0 ≠ "taxid" then
          .error (.exit "The format of the file provided with --taxid_input is invalid!")
        else
          match parseRows header.length mb dataRows acc with
          | .error t => .error t
          | .ok acc2 => parseFiles rest acc2

/-- get_assembly_length (script lines 59-79): the remote docsum fetch under
the shared retry loop; on success the function returns the text of the
Stat[total_length] node, supplied per assembly id and per attempt by the
environment; exhaustion exits with the efetch message; a non-transient
HTTPError propagates. -/
def get_assembly_length (fetchLen : String → Nat → Except Nat String)
    (assemblyId : String) : Except Term String :=
  match retryLoop (fetchLen assemblyId) with
  | (.ok s, _) => .ok s
  | (.raised c, _) => .error (.exc (.httpError c))
  | (.exhausted, _) => .error (.exit "Entrez efetch download failed!")

/-- lengths = [get_assembly_length(id) for id in ids] (script line 156). -/
def fetchLengths (fetchLen : String → Nat → Except Nat String) :
    List String → Except Term (List String)
  | [] => .ok []
  | aId :: rest =>
    match get_assembly_length fetchLen aId with
    | .error t => .error t
    | .ok s =>
      match fetchLengths fetchLen rest with
      | .error t => .error t
      | .ok ss => .ok (s :: ss)

/-- The assembly-selection loop (script lines 150-159): for each tax record,
read IdList[0]; when LinkSetDb is nonempty, collect the Link ids, fetch their
length strings, and keep ids[lengths.index(max(lengths))] — Python max on a
list of str values, hence lexicographic; max of an empty list would raise
ValueError.  Records with empty LinkSetDb are skipped silently. -/
def selectLoop (fetchLen : String → Nat → Except Nat String) :
    List TaxRecord → List (String × String) → Except Term (List (String × String))
  | [], d => .ok d
  | rec :: rest, d =>
    match pyIdx rec.idList 0 with
    | .error e => .error (.exc e)
    | .ok taxId =>
      match rec.linkSetDb with
      | [] => selectLoop fetchLen rest d
      | links :: _ =>
        match fetchLengths fetchLen links with
        | .error t => .error t
        | .ok lengths =>
          match pyMaxStr lengths with
          | none => .error (.exc .valueError)
          | some m =>
            selectLoop fetchLen rest (dictInsert d taxId (links.getD (lengths.indexOf m) ""))

/-- Output 1 (script lines 164-166): header row then one row per entry of
dict_taxId_assemblyId in insertion order. -/
def out1Rows (d : List (String × String)) : List (List String) :=
  ["taxon", "assembly"] :: d.map (fun e => [e.1, e.2])

/-- The store of Python list objects; dict values that alias the same list
object hold the same cell index. -/
structure Heap where
  cells : List (List String)
deriving DecidableEq, Repr

/-- Dereference a cell. -/
def Heap.get (h : Heap) (r : Nat) : List String :=
  match h.cells[r]? with
  | some c => c
  | none => []

/-- Overwrite a cell. -/
def Heap.set (h : Heap) (r : Nat) (v : List String) : Heap :=
  ⟨h.cells.set r v⟩

/-- Allocate a fresh list object. -/
def Heap.alloc (h : Heap) (v : List String) : Heap × Nat :=
  (⟨h.cells ++ [v]⟩, h.cells.length)

/-- dict_seqId_assemblyIds[record].append(assemblyId) for every Link id of
one assembly record (script lines 200-201); the defaultdict creates a fresh
list object for an unseen sequence id. -/
def appendLinks (aId : String) : List String → Heap → List (String × Nat) →
    Heap × List (String × Nat)
  | [], h, sr => (h, sr)
  | seqId :: rest, h, sr =>
    match pyLookup sr seqId with
    | some r => appendLinks aId rest (h.set r (h.get r ++ [aId])) sr
    | none =>
      match h.alloc [aId] with
      | (h2, r) => appendLinks aId rest h2 (sr ++ [(seqId, r)])

/-- The sequence-dict build (script lines 197-201): for each record of the
assembly-to-nuccore elink result, read IdList[0] and LinkSetDb[0] (an
IndexError when LinkSetDb is empty, as in the script) and append the
assembly id to every linked sequence id. -/
def buildSeqDict : List TaxRecord → Heap → List (String × Nat) →
    Except PyExc (Heap × List (String × Nat))
  | [], h, sr => .ok (h, sr)
  | rec :: rest, h, sr =>
    match pyIdx rec.idList 0 with
    | .error e => .error e
    | .ok aId =>
      match pyIdx rec.linkSetDb 0 with
      | .error e => .error e
      | .ok links =>
        match appendLinks aId links h sr with
        | (h2, sr2) => buildSeqDict rest h2 sr2

/-- The merge branch (script lines 243-245): for i in assemblyIds, append i
to the list object held by the protein when it is not already a member. -/
def mergeInto (h : Heap) (q : Nat) : List String → Heap
  | [] => h
  | i :: rest =>
    if i ∈ h.get q then mergeInto h q rest
    else mergeInto (h.set q (h.get q ++ [i])) q rest

/-- The protein loop of one nucleotide record (script lines 239-245): a
protein seen for the first time is bound to the very list object of its
sequence (reference assignment, not a copy); a protein seen again gets the
members of the current list merged into the object it already holds. -/
def procProteins (r : Nat) : List String → Heap → List (String × Nat) →
    Heap × List (String × Nat)
  | [], h, pr => (h, pr)
  | p :: rest, h, pr =>
    match pyLookup pr p with
    | none => procProteins r rest h (pr ++ [(p, r)])
    | some q => procProteins r rest (mergeInto h q (h.get r)) pr

/-- The protein-dict build (script lines 232-245): for each record of the
nuccore-to-protein elink result, read IdList[0], take the sequence list via
defaultdict access (which inserts an empty list for an unseen id), and when
LinkSetDb is nonempty run the protein loop on LinkSetDb[0]. -/
def buildProtDict : List TaxRecord → Heap → List (String × Nat) → List (String × Nat) →
    Except PyExc (Heap × List (String × Nat) × List (String × Nat))
  | [], h, sr, pr => .ok (h, sr, pr)
  | rec :: rest, h, sr, pr =>
    match pyIdx rec.idList 0 with
    | .error e => .error e
    | .ok seqId =>
      match pyLookup sr seqId with
      | some r =>
        match rec.linkSetDb with
        | [] => buildProtDict rest h sr pr
        | links :: _ =>
          match procProteins r links h pr with
          | (h2, pr2) => buildProtDict rest h2 sr pr2
      | none =>
        match h.alloc [] with
        | (h2, r) =>
          match rec.linkSetDb with
          | [] => buildProtDict rest h2 (sr ++ [(seqId, r)]) pr
          | links :: _ =>
            match procProteins r links h2 pr with
            | (h3, pr2) => buildProtDict rest h3 (sr ++ [(seqId, r)]) pr2

/-- The value view of dict_proteinId_assemblyIds: each protein id paired with
the current content of the list object it references. -/
def materialize (h : Heap) (pr : List (String × Nat)) : List (String × List String) :=
  pr.map (fun e => (e.1, h.get e.2))

/-- Output 2 (script lines 257-259): header row, then for each protein in
first-encountered order the comma-joined assembly list. -/
def out2Rows (protAss : List (String × List String)) : List (List String) :=
  ["protein_tmp_id", "assemblies"] :: protAss.map (fun e => [e.1, String.intercalate "," e.2])

/-- Output 3 (script lines 294-297): header row then one row per FASTA
record (record.id, record.seq). -/
def out3Rows (recs : List (String × String)) : List (List String) :=
  ["protein_tmp_id", "protein_sequence"] :: recs.map (fun r => [r.1, r.2])

/-- One += step of the weight accumulator (script line 90): the defaultdict
default is the float 0.0; adding a Python int gives an exact small-integer
float (kept as Int); adding a str raises TypeError. -/
def addAb (w : Int) : AbVal → Except PyExc Int
  | .str _ => .error .typeError
  | .int n => .ok (w + n)

/-- The microbiome loop (script lines 89-90): add the full per-microbiome
abundance vector of one taxon into the running weight dict. -/
def addVec : List (String × AbVal) → List (String × Int) → Except PyExc (List (String × Int))
  | [], acc => .ok acc
  | (mb, v) :: rest, acc =>
    match addAb ((pyLookup acc mb).getD 0) v with
    | .error e => .error e
    | .ok w => addVec rest (dictInsert acc mb w)

/-- The taxon loop of get_protein_weight (script lines 87-91): the break
statement sits at the same indentation as the if, so the loop body runs for
the first entry of dict_taxId_assemblyId only and then breaks
unconditionally; that first taxon contributes its abundances exactly when
its selected assembly equals the current assembly. -/
def weightInner (assembly : String) (taxAss : List (String × String)) (abund : AbMap)
    (acc : List (String × Int)) : Except PyExc (List (String × Int)) :=
  match taxAss with
  | [] => .ok acc
  | (taxId, assembly2) :: _ =>
    if assembly = assembly2 then addVec ((pyLookup abund taxId).getD []) acc
    else .ok acc

/-- The assembly loop of get_protein_weight (script line 86). -/
def weightOuter : List String → List (String × String) → AbMap →
    List (String × Int) → Except PyExc (List (String × Int))
  | [], _, _, acc => .ok acc
  | assembly :: rest, taxAss, abund, acc =>
    match weightInner assembly taxAss abund acc with
    | .error e => .error e
    | .ok acc2 => weightOuter rest taxAss abund acc2

/-- get_protein_weight (script lines 84-92): iterate the assembly list of
the protein (KeyError when the protein id is absent) and accumulate weights
per microbiome. -/
def get_protein_weight (proteinId : String) (protAss : List (String × List String))
    (taxAss : List (String × String)) (abund : AbMap) :
    Except PyExc (List (String × Int)) :=
  match pyLookup protAss proteinId with
  | none => .error .keyError
  | some assemblies => weightOuter assemblies taxAss abund []

/-- The inner emission loop of step 6 (script lines 316-319): one output row
per microbiome of the weight dict; dict_protein_uid_acc[proteinId] is a
plain dict access (KeyError when absent). -/
def emitRows (p : String) (uidAcc : List (String × String)) :
    List (String × Int) → List (String × Int × String) →
    Except (List (String × Int × String) × PyExc) (List (String × Int × String))
  | [], rows => .ok rows
  | (mb, w) :: rest, rows =>
    match pyLookup uidAcc p with
    | none => .error (rows, .keyError)
    | some acc => emitRows p uidAcc rest (rows ++ [(acc, w, mb)])

/-- The protein loop of step 6 (script lines 313-319): successive calls to
get_protein_weight followed by row emission; an exception keeps the rows
already flushed. -/
def out4Loop (protAss : List (String × List String)) (taxAss : List (String × String))
    (abund : AbMap) (uidAcc : List (String × String)) :
    List String → List (String × Int × String) →
    List (String × Int × String) × Option PyExc
  | [], rows => (rows, none)
  | p :: rest, rows =>
    match get_protein_weight p protAss taxAss abund with
    | .error e => (rows, some e)
    | .ok wdict =>
      match emitRows p uidAcc wdict rows with
      | .error (rows2, e) => (rows2, some e)
      | .ok rows2 => out4Loop protAss taxAss abund uidAcc rest rows2

/-- The four output tables of one run.  out4hdr records whether the header
line of Output 4 was printed; out4 rows are kept structured as
(accession, weight, microbiome id). -/
structure Outputs where
  out1 : List (List String)
  out2 : List (List String)
  out3 : List (List String)
  out4hdr : Bool
  out4 : List (String × Int × String)
deriving DecidableEq, Repr

/-- No output row written yet. -/
def emptyOut : Outputs := ⟨[], [], [], false, []⟩

/-- Outputs after Output 1 has been flushed. -/
def outsThru1 (taxAss : List (String × String)) : Outputs :=
  ⟨out1Rows taxAss, [], [], false, []⟩

/-- Outputs after Output 1 and Output 2 have been flushed. -/
def outsThru2 (taxAss : List (String × String)) (protAss : List (String × List String)) : Outputs :=
  ⟨out1Rows taxAss, out2Rows protAss, [], false, []⟩

/-- The environment of one run: the parsed input files with their microbiome
ids, and for each remote operation the per-attempt outcome stream (HTTP
status code on failure, parsed payload on success). -/
structure Env where
  taxidInput : List (List (List String))
  microbiomeIds : List String
  elink1 : Nat → Except Nat (List TaxRecord)
  fetchLen : String → Nat → Except Nat String
  elink2 : Nat → Except Nat (List TaxRecord)
  elink3 : Nat → Except Nat (List TaxRecord)
  esummary : Nat → Except Nat (List (String × String))
  efetch : Nat → Except Nat (List (String × String))

/-- main (script lines 95-321): the stages in program order, each flushing
its table before the next remote call; an abnormal termination keeps exactly
the rows flushed so far. -/
def mainRun (env : Env) : Outputs × Term :=
  match parseFiles (env.taxidInput.zip env.microbiomeIds) [] with
  | .error t => (emptyOut, t)
  | .ok abund =>
    match retryLoop env.elink1 with
    | (.raised c, _) => (emptyOut, .exc (.httpError c))
    | (.exhausted, _) => (emptyOut, .exit "Entrez elink download failed!")
    | (.ok assemblyResults, _) =>
      match selectLoop env.fetchLen assemblyResults [] with
      | .error t => (emptyOut, t)
      | .ok taxAss =>
        match retryLoop env.elink2 with
        | (.raised c, _) => (outsThru1 taxAss, .exc (.httpError c))
        | (.exhausted, _) =>
          (outsThru1 taxAss, .exit "Entrez elink download failed!")
        | (.ok nucResults, _) =>
          match buildSeqDict nucResults ⟨[]⟩ [] with
          | .error e => (outsThru1 taxAss, .exc e)
          | .ok (h1, sr1) =>
            match retryLoop env.elink3 with
            | (.raised c, _) =>
              (outsThru1 taxAss, .exc (.httpError c))
            | (.exhausted, _) =>
              (outsThru1 taxAss, .exit "Entrez elink download failed!")
            | (.ok protResults, _) =>
              match buildProtDict protResults h1 sr1 [] with
              | .error e => (outsThru1 taxAss, .exc e)
              | .ok (h2, _sr2, pr) =>
                match retryLoop env.esummary with
                | (.raised c, _) =>
                  (outsThru2 taxAss (materialize h2 pr), .exc (.httpError c))
                | (.exhausted, _) =>
                  (outsThru2 taxAss (materialize h2 pr),
                   .exit "Entrez esummary download failed!")
                | (.ok summaries, _) =>
                  match retryLoop env.efetch with
                  | (.raised c, _) =>
                    (outsThru2 taxAss (materialize h2 pr), .exc (.httpError c))
                  | (.exhausted, _) =>
                    (outsThru2 taxAss (materialize h2 pr),
                     .exit "Entrez efetch download failed!")
                  | (.ok fastaRecs, _) =>
                    match out4Loop (materialize h2 pr) taxAss abund
                        (summaries.foldl (fun d s => dictInsert d s.1 s.2) [])
                        (pr.map Prod.fst) [] with
                    | (rows, some e) =>
                      (⟨out1Rows taxAss, out2Rows (materialize h2 pr),
                        out3Rows fastaRecs, true, rows⟩, .exc e)
                    | (rows, none) =>
                      (⟨out1Rows taxAss, out2Rows (materialize h2 pr),
                        out3Rows fastaRecs, true, rows⟩, .done)

/-- Environment realising the end-to-end scenario of the spec: one input
file with header taxid/abundance and row 9606/2.5, microbiome gutA, two
candidate assemblies X and Y of total_length 100 and 200, one sequence and
one protein under the selected assembly. -/
def envC3 : Env where
  taxidInput := [[["taxid", "abundance"], ["9606", "2.5"]]]
  microbiomeIds := ["gutA"]
  elink1 := fun _ => .ok [⟨["9606"], [["X", "Y"]]⟩]
  fetchLen := fun a _ => if a = "X" then .ok "100" else .ok "200"
  elink2 := fun _ => .ok [⟨["Y"], [["S1"]]⟩]
  elink3 := fun _ => .ok [⟨["S1"], [["P1"]]⟩]
  esummary := fun _ => .ok [("P1", "WP_000001.1")]
  efetch := fun _ => .ok [("WP_000001.1", "MKV")]

/-- Environment in which every stage up to Output 2 succeeds and the protein
batch-summary operation then fails with HTTP 503 on all three attempts. -/
def envC7 : Env where
  taxidInput := [[["taxid"], ["9606"]]]
  microbiomeIds := ["m1"]
  elink1 := fun _ => .ok [⟨["9606"], [["A1"]]⟩]
  fetchLen := fun _ _ => .ok "500"
  elink2 := fun _ => .ok [⟨["A1"], [["S1"]]⟩]
  elink3 := fun _ => .ok [⟨["S1"], [["P1"]]⟩]
  esummary := fun _ => .error 503
  efetch := fun _ => .ok []

/-- Environment whose single input file is completely empty. -/
def envC9 : Env where
  taxidInput := [[]]
  microbiomeIds := ["m1"]
  elink1 := fun _ => .ok []
  fetchLen := fun _ _ => .ok "1"
  elink2 := fun _ => .ok []
  elink3 := fun _ => .ok []
  esummary := fun _ => .ok []
  efetch := fun _ => .ok []

/-- Helper: only the first entry of the taxon map is ever consulted by the
assembly loop, because the break in the inner loop is unconditional. -/
theorem weightOuter_first_only (t a : String) (rest : List (String × String)) (abund : AbMap) :
    ∀ (assemblies : List String) (acc : List (String × Int)),
      weightOuter assemblies ((t, a) :: rest) abund acc
        = weightOuter assemblies [(t, a)] abund acc := by
  intro assemblies
  induction assemblies with
  | nil => intro acc; rfl
  | cons x xs ih =>
    intro acc
    simp only [weightOuter]
    have h : weightInner x ((t, a) :: rest) abund acc
        = weightInner x [(t, a)] abund acc := rfl
    rw [h]
    cases weightInner x [(t, a)] abund acc with
    | error e => rfl
    | ok acc2 => exact ih acc2

/-- C1: for the candidate assemblies X and Y with total_length strings 100
and 99, the selection loop records Y, because Python max compares the
length strings lexicographically (99 is greater than 100 as a string) even
though 99 is numerically smaller than 100. -/
theorem c1_selection_lexicographic :
    selectLoop (fun a _ => if a = "X" then .ok "100" else .ok "99") [⟨["T"], [["X", "Y"]]⟩] []
      = .ok [("T", "Y")]
  ∧ pyMaxStr ["100", "99"] = some "99"
  ∧ digitsToNat "99" < digitsToNat "100" := by
  refine ⟨by decide, by decide, by decide⟩

/-- C2 counterexample: protein P is linked to assembly A2, which is the
selected assembly of taxon T2, the first (and only) matching taxon; the
claim predicts that T2 contributes its abundance vector, giving weight 1 for
microbiome m, but the code returns the empty weight dict because the
unconditional break stops the taxon loop after inspecting T1. -/
theorem c2_unconditional_break_counterexample :
    get_protein_weight "P" [("P", ["A2"])] [("T1", "A1"), ("T2", "A2")]
        [("T2", [("m", AbVal.int 1)])]
      = .ok []
  ∧ (Except.ok [] : Except PyExc (List (String × Int))) ≠ .ok [("m", 1)] := by
  refine ⟨by decide, by decide⟩

/-- C2 amended: weight aggregation consults only the first entry of the
taxon-to-assembly map (the break fires unconditionally after the first inner
iteration), and that first taxon contributes its full per-microbiome
abundance vector exactly when its selected assembly equals the assembly
under consideration; all later taxa never contribute. -/
theorem c2_amended_first_entry_only :
    (∀ (p : String) (protAss : List (String × List String))
       (taxAss : List (String × String)) (abund : AbMap),
       get_protein_weight p protAss taxAss abund
         = get_protein_weight p protAss (taxAss.take 1) abund)
  ∧ (∀ (assembly taxId assembly2 : String) (rest : List (String × String))
       (abund : AbMap) (acc : List (String × Int)),
       weightInner assembly ((taxId, assembly2) :: rest) abund acc
         = if assembly = assembly2 then addVec ((pyLookup abund taxId).getD []) acc
           else .ok acc) := by
  constructor
  · intro p protAss taxAss abund
    cases taxAss with
    | nil => rfl
    | cons e rest =>
      unfold get_protein_weight
      cases pyLookup protAss p with
      | none => rfl
      | some assemblies => exact weightOuter_first_only e.1 e.2 rest abund assemblies []
  · intro assembly taxId assembly2 rest abund acc
    rfl

/-- C3: on the end-to-end scenario of the spec (header taxid/abundance, row
9606/2.5, microbiome gutA, candidate assemblies of lengths 100 and 200) the
run does select the length-200 assembly Y, but it then crashes with an
uncaught TypeError when the string abundance 2.5 is added to the float 0.0,
so no Output-4 weight row is ever emitted. -/
theorem c3_scenario_selects_200_then_typeError :
    mainRun envC3
      = (⟨[["taxon", "assembly"], ["9606", "Y"]],
          [["protein_tmp_id", "assemblies"], ["P1", "Y"]],
          [["protein_tmp_id", "protein_sequence"], ["WP_000001.1", "MKV"]],
          true, []⟩,
         .exc .typeError) := by
  decide

/-- C4: protein Q is linked only to sequence S1 (assembly set A1), yet after
protein P (first seen via the same list object) is merged with assembly A2,
both Q and the sequence dict entry for S1 read back as A1,A2: the merge
mutates the shared list object, altering another protein and a sequence. -/
theorem c4_shared_list_mutation :
    buildSeqDict [⟨["A1"], [["S1"]]⟩, ⟨["A2"], [["S2"]]⟩] ⟨[]⟩ []
      = .ok (⟨[["A1"], ["A2"]]⟩, [("S1", 0), ("S2", 1)])
  ∧ buildProtDict [⟨["S1"], [["P", "Q"]]⟩, ⟨["S2"], [["P"]]⟩]
        ⟨[["A1"], ["A2"]]⟩ [("S1", 0), ("S2", 1)] []
      = .ok (⟨[["A1", "A2"], ["A2"]]⟩, [("S1", 0), ("S2", 1)], [("P", 0), ("Q", 0)])
  ∧ materialize ⟨[["A1", "A2"], ["A2"]]⟩ [("P", 0), ("Q", 0)]
      = [("P", ["A1", "A2"]), ("Q", ["A1", "A2"])]
  ∧ Heap.get ⟨[["A1", "A2"], ["A2"]]⟩ 0 ≠ ["A1"] := by
  refine ⟨by decide, by decide, by decide, by decide⟩

/-- C5 counterexample: assembly A is selected by two taxa, so the
assembly-to-sequence stage records the link A to S twice; sequence S ends up
with the duplicated list A,A, and protein P, first seen via S, inherits that
list verbatim, so its Output-2 row contains a duplicate assembly id. -/
theorem c5_duplicate_assembly_counterexample :
    buildSeqDict [⟨["A"], [["S"]]⟩, ⟨["A"], [["S"]]⟩] ⟨[]⟩ []
      = .ok (⟨[["A", "A"]]⟩, [("S", 0)])
  ∧ buildProtDict [⟨["S"], [["P"]]⟩] ⟨[["A", "A"]]⟩ [("S", 0)] []
      = .ok (⟨[["A", "A"]]⟩, [("S", 0)], [("P", 0)])
  ∧ out2Rows (materialize ⟨[["A", "A"]]⟩ [("P", 0)])
      = [["protein_tmp_id", "assemblies"], ["P", "A,A"]]
  ∧ ¬ (["A", "A"] : List String).Nodup := by
  refine ⟨by decide, by decide, by decide, by decide⟩

/-- Helper: one unfolding step of the retry loop. -/
theorem retryFrom_succ {α : Type} (o : Nat → Except Nat α) (a n : Nat) (s : List Nat) :
    retryFrom o a (n + 1) s
      = match o a with
        | .ok v => (.ok v, s ++ [1])
        | .error c =>
          if 500 ≤ c ∧ c ≤ 599 then retryFrom o (a + 1) n (s ++ [10])
          else (.raised c, s) := rfl

/-- Helper: the retry loop consults only the attempts below its fuel bound. -/
theorem retryFrom_congr {α : Type} (o o2 : Nat → Except Nat α) :
    ∀ (fuel a : Nat) (s : List Nat),
      (∀ i, i < fuel → o (a + i) = o2 (a + i)) →
      retryFrom o a fuel s = retryFrom o2 a fuel s := by
  intro fuel
  induction fuel with
  | zero => intro a s _; rfl
  | succ n ih =>
    intro a s h
    have h0 : o a = o2 a := by simpa using h 0 n.succ_pos
    rw [retryFrom_succ, retryFrom_succ, h0]
    cases o2 a with
    | ok v => rfl
    | error c =>
      simp only []
      by_cases hc : 500 ≤ c ∧ c ≤ 599
      · rw [if_pos hc, if_pos hc]
        refine ih (a + 1) (s ++ [10]) (fun i hi => ?_)
        have e : a + 1 + i = a + (i + 1) := by omega
        rw [e]
        exact h (i + 1) (by omega)
      · rw [if_neg hc, if_neg hc]

/-- C6: the uniform failure policy of all six remote-call blocks: (1) at
most 3 attempts are ever consulted; (2) an error outside 500..599 is
re-raised immediately with no sleep; (3) two transient 5xx failures followed
by a success yield the successful payload, with a 10-second pause after each
failure; (4) three transient failures exhaust the loop after three
10-second pauses. -/
theorem c6_retry_policy :
    (∀ (α : Type) (o o2 : Nat → Except Nat α),
       (∀ i, i < 3 → o i = o2 i) → retryLoop o = retryLoop o2)
  ∧ (∀ (α : Type) (o : Nat → Except Nat α) (c : Nat),
       o 0 = .error c → ¬(500 ≤ c ∧ c ≤ 599) → retryLoop o = (.raised c, []))
  ∧ (∀ (α : Type) (o : Nat → Except Nat α) (c0 c1 : Nat) (v : α),
       o 0 = .error c0 → 500 ≤ c0 → c0 ≤ 599 →
       o 1 = .error c1 → 500 ≤ c1 → c1 ≤ 599 →
       o 2 = .ok v → retryLoop o = (.ok v, [10, 10, 1]))
  ∧ (∀ (α : Type) (o : Nat → Except Nat α) (c0 c1 c2 : Nat),
       o 0 = .error c0 → 500 ≤ c0 → c0 ≤ 599 →
       o 1 = .error c1 → 500 ≤ c1 → c1 ≤ 599 →
       o 2 = .error c2 → 500 ≤ c2 → c2 ≤ 599 →
       retryLoop o = (.exhausted, [10, 10, 10])) := by
  refine ⟨?_, ?_, ?_, ?_⟩
  · intro α o o2 h
    unfold retryLoop
    exact retryFrom_congr o o2 3 0 [] (fun i hi => by simpa using h i hi)
  · intro α o c h0 hc
    unfold retryLoop
    rw [retryFrom_succ, h0]
    simp only []
    rw [if_neg hc]
  · intro α o c0 c1 v h0 hl0 hr0 h1 hl1 hr1 h2
    unfold retryLoop
    rw [retryFrom_succ, h0]
    simp only []
    rw [if_pos (And.intro hl0 hr0), retryFrom_succ, h1]
    simp only []
    rw [if_pos (And.intro hl1 hr1), retryFrom_succ, h2]
    rfl
  · intro α o c0 c1 c2 h0 hl0 hr0 h1 hl1 hr1 h2 hl2 hr2
    unfold retryLoop
    rw [retryFrom_succ, h0]
    simp only []
    rw [if_pos (And.intro hl0 hr0), retryFrom_succ, h1]
    simp only []
    rw [if_pos (And.intro hl1 hr1), retryFrom_succ, h2]
    simp only []
    rw [if_pos (And.intro hl2 hr2)]
    rfl

/-- C6 witness: a concrete outcome stream with transient failures 502 and
511 on the first two attempts and a success on the third returns the
successful payload after two 10-second pauses and the 1-second rate pause. -/
theorem c6_retry_policy_witness :
    retryLoop (fun i => if i = 0 then .error 502 else if i = 1 then .error 511
        else .ok ([] : List TaxRecord))
      = (.ok [], [10, 10, 1]) := by
  exact c6_retry_policy.2.2.1 (List TaxRecord) _ 502 511 [] rfl (by decide) (by decide)
    rfl (by decide) (by decide) rfl

/-- C7 counterexample: in envC7 every stage through Output 2 succeeds and
the protein batch summary then fails with HTTP 503 three times; the run
terminates with the esummary fatal message, yet the Output-1 row 9606/A1 and
the Output-2 row P1/A1 have already been flushed, contradicting the claim
that no rows of any output table are emitted. -/
theorem c7_partial_output_counterexample :
    mainRun envC7
      = (⟨[["taxon", "assembly"], ["9606", "A1"]],
          [["protein_tmp_id", "assemblies"], ["P1", "A1"]],
          [], false, []⟩,
         .exit "Entrez esummary download failed!")
  ∧ ["9606", "A1"] ∈ (mainRun envC7).1.out1
  ∧ ["P1", "A1"] ∈ (mainRun envC7).1.out2 := by
  refine ⟨by decide, by decide, by decide⟩

/-- C7 amended: exhaustion of a retry block terminates the run with its
fatal labeled message, and the outputs of all stages after the failing
operation stay empty: a run that ends with the esummary message (only the
protein batch summary exits with it) or with the efetch message has no
Output-3 row, no Output-4 header and no Output-4 row; rows already flushed
by earlier stages (Outputs 1 and 2) remain, as the counterexample shows. -/
theorem c7_amended_later_outputs_empty (env : Env) (o : Outputs) (t : Term)
    (hm : mainRun env = (o, t)) :
    (t = .exit "Entrez esummary download failed!" →
       o.out3 = [] ∧ o.out4hdr = false ∧ o.out4 = [])
  ∧ (t = .exit "Entrez efetch download failed!" →
       o.out3 = [] ∧ o.out4hdr = false ∧ o.out4 = []) := by
  unfold mainRun at hm
  repeat' split at hm
  all_goals injection hm with ho ht
  all_goals subst ho
  all_goals subst ht
  all_goals
    first
      | exact ⟨fun _ => ⟨rfl, rfl, rfl⟩, fun _ => ⟨rfl, rfl, rfl⟩⟩
      | exact ⟨fun h => by simp at h, fun h => by simp at h⟩

/-- C7 amended witness: the concrete esummary-exhaustion run of envC7 has
empty Output 3 and Output 4. -/
theorem c7_amended_witness :
    (mainRun envC7).1.out3 = [] ∧ (mainRun envC7).1.out4hdr = false
      ∧ (mainRun envC7).1.out4 = [] := by
  exact (c7_amended_later_outputs_empty envC7 (mainRun envC7).1 (mainRun envC7).2 rfl).1
    (by decide)

/-- Helper: pyIdx can only raise IndexError. -/
theorem pyIdx_error {α : Type} (l : List α) (i : Nat) (e : PyExc)
    (h : pyIdx l i = .error e) : e = .indexError := by
  unfold pyIdx at h
  cases hl : l[i]? with
  | some a => simp [hl] at h
  | none =>
    simp only [hl] at h
    injection h with h
    exact h.symm

/-- Helper: the row loop can only terminate abnormally with IndexError. -/
theorem parseRows_error (mb : String) :
    ∀ (rows : List (List String)) (hlen : Nat) (acc : AbMap) (t : Term),
      parseRows hlen mb rows acc = .error t → t = .exc .indexError := by
  intro rows
  induction rows with
  | nil =>
    intro hlen acc t h
    exact absurd h (by simp [parseRows])
  | cons row rest ih =>
    intro hlen acc t h
    unfold parseRows at h
    by_cases h2 : hlen = 2
    · rw [if_pos h2] at h
      cases hi : pyIdx row 1 with
      | error e =>
        simp only [hi] at h
        injection h with h
        rw [pyIdx_error row 1 e hi] at h
        exact h.symm
      | ok v =>
        simp only [hi] at h
        cases hj : pyIdx row 0 with
        | error e =>
          simp only [hj] at h
          injection h with h
          rw [pyIdx_error row 0 e hj] at h
          exact h.symm
        | ok t0 =>
          simp only [hj] at h
          exact ih hlen _ t h
    · rw [if_neg h2] at h
      cases hj : pyIdx row 0 with
      | error e =>
        simp only [hj] at h
        injection h with h
        rw [pyIdx_error row 0 e hj] at h
        exact h.symm
      | ok t0 =>
        simp only [hj] at h
        exact ih hlen _ t h

/-- C9: (1) when the input files before an empty one parse successfully,
reading the header of the empty file raises an uncaught StopIteration;
(2) such a run terminates with the StopIteration exception and completely
empty outputs, not with the input-format fatal message; (3) the header
validation compares only the first header field with the literal taxid: a
single input file trips the format exit exactly when its first header field
differs from taxid, whatever the remaining fields hold. -/
theorem c9_empty_file_stopIteration :
    (∀ (pre : List (List (List String) × String)) (mb : String)
       (rest : List (List (List String) × String)) (acc acc1 : AbMap),
       parseFiles pre acc = .ok acc1 →
       parseFiles (pre ++ ([], mb) :: rest) acc = .error (.exc .stopIteration))
  ∧ (∀ (env : Env) (pre : List (List (List String) × String)) (mb : String)
       (rest : List (List (List String) × String)) (acc1 : AbMap),
       env.taxidInput.zip env.microbiomeIds = pre ++ ([], mb) :: rest →
       parseFiles pre [] = .ok acc1 →
       mainRun env = (emptyOut, .exc .stopIteration))
  ∧ (∀ (h0 : String) (hs : List String) (dataRows : List (List String))
       (mb : String) (acc : AbMap),
       parseFiles [((h0 :: hs) :: dataRows, mb)] acc
           = .error (.exit "The format of the file provided with --taxid_input is invalid!")
         ↔ h0 ≠ "taxid") := by
  have hA : ∀ (pre : List (List (List String) × String)) (mb : String)
      (rest : List (List (List String) × String)) (acc acc1 : AbMap),
      parseFiles pre acc = .ok acc1 →
      parseFiles (pre ++ ([], mb) :: rest) acc = .error (.exc .stopIteration) := by
    intro pre mb rest
    induction pre with
    | nil => intro acc acc1 _; rfl
    | cons f pre2 ih =>
      intro acc acc1 h
      rw [List.cons_append]
      cases f with
      | mk rows m =>
        cases rows with
        | nil => exact absurd h (by simp [parseFiles])
        | cons header dataRows =>
          unfold parseFiles at h ⊢
          cases hi : pyIdx header 0 with
          | error e =>
            simp only [hi] at h
            exact absurd h (by simp)
          | ok h0 =>
            simp only [hi] at h ⊢
            by_cases ht : h0 ≠ "taxid"
            · rw [if_pos ht] at h
              exact absurd h (by simp)
            · rw [if_neg ht] at h
              rw [if_neg ht]
              cases hp : parseRows header.length m dataRows acc with
              | error t2 =>
                simp only [hp] at h
                exact absurd h (by simp)
              | ok acc2 =>
                simp only [hp] at h ⊢
                exact ih acc2 acc1 h
  refine ⟨hA, ?_, ?_⟩
  · intro env pre mb rest acc1 hzip hpre
    have h1 : parseFiles (env.taxidInput.zip env.microbiomeIds) []
        = .error (.exc .stopIteration) := by
      rw [hzip]
      exact hA pre mb rest [] acc1 hpre
    unfold mainRun
    simp only [h1]
  · intro h0 hs dataRows mb acc
    constructor
    · intro h
      by_contra hne
      simp only [parseFiles, pyIdx, List.getElem?_cons_zero] at h
      rw [if_neg (by simp [hne])] at h
      cases hp : parseRows (h0 :: hs).length mb dataRows acc with
      | error t2 =>
        simp only [hp] at h
        injection h with h
        rw [parseRows_error mb dataRows (h0 :: hs).length acc t2 hp] at h
        exact absurd h (by simp)
      | ok acc2 =>
        simp only [hp] at h
        exact absurd h (by simp [parseFiles])
    · intro ht
      simp only [parseFiles, pyIdx, List.getElem?_cons_zero]
      rw [if_pos ht]

/-- C9 witness: the concrete run of envC9, whose single input file is empty,
ends with StopIteration and empty outputs. -/
theorem c9_empty_file_witness : mainRun envC9 = (emptyOut, .exc .stopIteration) := by
  exact c9_empty_file_stopIteration.2.1 envC9 [] "m1" [] [] rfl rfl

/-- C10: (1) a single-file run with header taxid plus further fields and one
data row stores the str value of the second column exactly when the header
has two fields, and the int 1 otherwise; (2) with a header arity other than
two, a data row contributes the int 1 even when it carries a value column;
(3) with a two-field header the second column is stored verbatim as a str. -/
theorem c10_header_arity_semantics :
    (∀ (hs : List String) (t v : String) (extra : List String) (mb : String),
       parseFiles [(("taxid" :: hs) :: [t :: v :: extra], mb)] []
         = .ok [(t, [(mb, if hs.length = 1 then AbVal.str v else AbVal.int 1)])])
  ∧ (∀ (hlen : Nat) (mb t v : String) (extra : List String)
       (rows : List (List String)) (acc : AbMap),
       hlen ≠ 2 →
       parseRows hlen mb ((t :: v :: extra) :: rows) acc
         = parseRows hlen mb rows (abInsert acc t mb (.int 1)))
  ∧ (∀ (mb t v : String) (extra : List String) (rows : List (List String)) (acc : AbMap),
       parseRows 2 mb ((t :: v :: extra) :: rows) acc
         = parseRows 2 mb rows (abInsert acc t mb (.str v))) := by
  refine ⟨?_, ?_, ?_⟩
  · intro hs t v extra mb
    simp only [parseFiles, pyIdx, List.getElem?_cons_zero]
    rw [if_neg (by simp)]
    simp only [parseRows, List.length_cons]
    by_cases h1 : hs.length = 1
    · rw [if_pos (by omega), if_pos h1]
      simp [pyIdx, abInsert, pyLookup, parseRows, parseFiles]
    · rw [if_neg (by omega), if_neg h1]
      simp [pyIdx, abInsert, pyLookup, parseRows, parseFiles]
  · intro hlen mb t v extra rows acc h
    simp only [parseRows, if_neg h, pyIdx, List.getElem?_cons_zero]
  · intro mb t v extra rows acc
    simp [parseRows, pyIdx]

/-- C10 witness: with the three-field header arity the row value 5 is
ignored and the int 1 is stored for taxon t1. -/
theorem c10_header_arity_witness :
    parseRows 3 "m" [["t1", "5"]] [] = parseRows 3 "m" [] (abInsert [] "t1" "m" (.int 1)) := by
  exact c10_header_arity_semantics.2.1 3 "m" "t1" "5" [] [] [] (by decide)

/-- Helper: erasing an entry leaves lookups for other keys unchanged. -/
theorem pyLookup_eraseKey {β : Type} (t k : String) (hk : k ≠ t) :
    ∀ (m : List (String × β)), pyLookup (eraseKey m t) k = pyLookup m k := by
  intro m
  induction m with
  | nil => rfl
  | cons e rest ih =>
    cases e with
    | mk k2 v =>
      by_cases he : k2 = t
      · have h1 : eraseKey ((k2, v) :: rest) t = eraseKey rest t := by
          simp [eraseKey, List.filter_cons, he]
        have h2 : pyLookup ((k2, v) :: rest) k = pyLookup rest k := by
          show (if k2 = k then some v else pyLookup rest k) = pyLookup rest k
          exact if_neg (fun h3 => hk (h3.symm.trans he))
        rw [h1, ih, h2]
      · have h1 : eraseKey ((k2, v) :: rest) t = (k2, v) :: eraseKey rest t := by
          simp [eraseKey, List.filter_cons, he]
        rw [h1]
        show (if k2 = k then some v else pyLookup (eraseKey rest t) k)
            = (if k2 = k then some v else pyLookup rest k)
        rw [ih]

/-- Helper: dict insertion adds no key other than the inserted one. -/
theorem mem_keys_dictInsert {β : Type} (k : String) (v : β) (x : String) :
    ∀ (d : List (String × β)),
      x ∈ (dictInsert d k v).map Prod.fst → x ∈ d.map Prod.fst ∨ x = k := by
  intro d
  induction d with
  | nil =>
    intro h
    simp [dictInsert] at h
    exact Or.inr h
  | cons e rest ih =>
    cases e with
    | mk k2 v2 =>
      intro h
      unfold dictInsert at h
      by_cases he : k2 = k
      · rw [if_pos he] at h
        simp only [List.map_cons, List.mem_cons] at h
        rcases h with h | h
        · exact Or.inl (by simp [h])
        · exact Or.inl (by simp [h])
      · rw [if_neg he] at h
        simp only [List.map_cons, List.mem_cons] at h
        rcases h with h | h
        · exact Or.inl (by simp [h])
        · rcases ih h with h2 | h2
          · exact Or.inl (by simp [h2, List.mem_cons])
          · exact Or.inr h2

/-- Helper: the taxon loop ignores abundance entries of taxa that are absent
from the taxon-to-assembly map. -/
theorem weightInner_eraseKey (assembly : String) (taxAss : List (String × String))
    (abund : AbMap) (t : String) (acc : List (String × Int))
    (ht : t ∉ taxAss.map Prod.fst) :
    weightInner assembly taxAss (eraseKey abund t) acc
      = weightInner assembly taxAss abund acc := by
  cases taxAss with
  | nil => rfl
  | cons e rest =>
    cases e with
    | mk taxId a2 =>
      have hne : taxId ≠ t := by
        intro h
        exact ht (by simp [h])
      show (if assembly = a2 then addVec ((pyLookup (eraseKey abund t) taxId).getD []) acc
            else Except.ok acc)
          = (if assembly = a2 then addVec ((pyLookup abund taxId).getD []) acc
             else Except.ok acc)
      rw [pyLookup_eraseKey t taxId hne abund]

/-- Helper: the assembly loop ignores abundance entries of taxa absent from
the taxon-to-assembly map. -/
theorem weightOuter_eraseKey (taxAss : List (String × String)) (abund : AbMap)
    (t : String) (ht : t ∉ taxAss.map Prod.fst) :
    ∀ (assemblies : List String) (acc : List (String × Int)),
      weightOuter assemblies taxAss (eraseKey abund t) acc
        = weightOuter assemblies taxAss abund acc := by
  intro assemblies
  induction assemblies with
  | nil => intro acc; rfl
  | cons x xs ih =>
    intro acc
    simp only [weightOuter]
    rw [weightInner_eraseKey x taxAss abund t acc ht]
    cases weightInner x taxAss abund acc with
    | error e => rfl
    | ok acc2 => exact ih acc2

/-- Helper: get_protein_weight ignores abundance entries of taxa absent from
the taxon-to-assembly map. -/
theorem get_protein_weight_eraseKey (p : String) (protAss : List (String × List String))
    (taxAss : List (String × String)) (abund : AbMap) (t : String)
    (ht : t ∉ taxAss.map Prod.fst) :
    get_protein_weight p protAss taxAss (eraseKey abund t)
      = get_protein_weight p protAss taxAss abund := by
  unfold get_protein_weight
  cases pyLookup protAss p with
  | none => rfl
  | some assemblies => exact weightOuter_eraseKey taxAss abund t ht assemblies []

/-- Helper: the selection loop never records a taxon all of whose records
carry an empty LinkSetDb. -/
theorem selectLoop_not_mem (f : String → Nat → Except Nat String) (t : String) :
    ∀ (recs : List TaxRecord) (d : List (String × String)),
      (∀ rec ∈ recs, pyIdx rec.idList 0 = .ok t → rec.linkSetDb = []) →
      t ∉ d.map Prod.fst →
      ∀ (d2 : List (String × String)), selectLoop f recs d = .ok d2 →
        t ∉ d2.map Prod.fst := by
  intro recs
  induction recs with
  | nil =>
    intro d _ hd d2 h
    simp only [selectLoop] at h
    injection h with h
    rw [← h]
    exact hd
  | cons rec rest ih =>
    intro d hrec hd d2 h
    unfold selectLoop at h
    cases hi : pyIdx rec.idList 0 with
    | error e =>
      simp only [hi] at h
      exact absurd h (by simp)
    | ok taxId =>
      simp only [hi] at h
      cases hl : rec.linkSetDb with
      | nil =>
        simp only [hl] at h
        exact ih d (fun r hr hidx => hrec r (List.mem_cons_of_mem rec hr) hidx) hd d2 h
      | cons links lrest =>
        simp only [hl] at h
        cases hf : fetchLengths f links with
        | error t2 =>
          simp only [hf] at h
          exact absurd h (by simp)
        | ok lengths =>
          simp only [hf] at h
          cases hm : pyMaxStr lengths with
          | none =>
            simp only [hm] at h
            exact absurd h (by simp)
          | some m =>
            simp only [hm] at h
            have htax : taxId ≠ t := by
              intro he
              subst he
              have h0 := hrec rec (List.mem_cons_self rec rest) hi
              rw [h0] at hl
              exact absurd hl (by simp)
            have hd2 : t ∉ (dictInsert d taxId (links.getD (lengths.indexOf m) "")).map Prod.fst := by
              intro hmem
              rcases mem_keys_dictInsert taxId _ t d hmem with h2 | h2
              · exact hd h2
              · exact htax h2.symm
            exact ih _ (fun r hr hidx => hrec r (List.mem_cons_of_mem rec hr) hidx) hd2 d2 h

/-- C8: (1) a tax record with an empty candidate list is skipped silently:
the selection loop continues on the remaining records with the map
unchanged; (2) when every record of a taxon has an empty candidate list the
taxon is absent from the resulting map, hence from the Output-1 data rows,
and erasing its abundance entries leaves every protein weight for that map
unchanged, so it contributes zero weight to every protein/microbiome pair. -/
theorem c8_empty_candidates_dropped :
    (∀ (f : String → Nat → Except Nat String) (rec : TaxRecord) (rest : List TaxRecord)
       (d : List (String × String)) (t : String),
       pyIdx rec.idList 0 = .ok t → rec.linkSetDb = [] →
       selectLoop f (rec :: rest) d = selectLoop f rest d)
  ∧ (∀ (f : String → Nat → Except Nat String) (recs : List TaxRecord) (t : String)
       (d2 : List (String × String)),
       (∀ rec ∈ recs, pyIdx rec.idList 0 = .ok t → rec.linkSetDb = []) →
       selectLoop f recs [] = .ok d2 →
       t ∉ d2.map Prod.fst
       ∧ (∀ a, [t, a] ∉ d2.map (fun e => [e.1, e.2]))
       ∧ (∀ (p : String) (protAss : List (String × List String)) (abund : AbMap),
            get_protein_weight p protAss d2 (eraseKey abund t)
              = get_protein_weight p protAss d2 abund)) := by
  constructor
  · intro f rec rest d t hidx hempty
    conv_lhs => rw [selectLoop]
    simp only [hidx, hempty]
  · intro f recs t d2 hrec hsel
    have hkeys : t ∉ d2.map Prod.fst :=
      selectLoop_not_mem f t recs [] hrec (by simp) d2 hsel
    refine ⟨hkeys, ?_, ?_⟩
    · intro a hmem
      rw [List.mem_map] at hmem
      obtain ⟨e, he, heq⟩ := hmem
      have he1 : e.1 = t := by
        simp only [List.cons.injEq] at heq
        exact heq.1
      exact hkeys (List.mem_map.mpr ⟨e, he, he1⟩)
    · intro p protAss abund
      exact get_protein_weight_eraseKey p protAss d2 abund t hkeys

/-- C8 witness: the single record of taxon T0 has no candidate assembly, the
resulting map is empty, T0 is absent from it, and erasing the T0 abundance
entry leaves a concrete protein weight unchanged. -/
theorem c8_empty_candidates_witness :
    "T0" ∉ ([] : List (String × String)).map Prod.fst
  ∧ get_protein_weight "P" [("P", ["A"])] [] (eraseKey [("T0", [("m", AbVal.int 1)])] "T0")
      = get_protein_weight "P" [("P", ["A"])] [] [("T0", [("m", AbVal.int 1)])] := by
  have h := c8_empty_candidates_dropped.2 (fun _ _ => .ok "1") [⟨["T0"], []⟩] "T0" []
    (by decide) (by decide)
  exact ⟨h.1, h.2.2 "P" [("P", ["A"])] [("T0", [("m", AbVal.int 1)])]⟩

/-- Helper: a failed lookup means the key is absent. -/
theorem pyLookup_none {β : Type} (k : String) :
    ∀ (l : List (String × β)), pyLookup l k = none → k ∉ l.map Prod.fst := by
  intro l
  induction l with
  | nil =>
    intro _ h
    simp at h
  | cons e rest ih =>
    cases e with
    | mk k2 v =>
      intro hl hmem
      unfold pyLookup at hl
      by_cases he : k2 = k
      · rw [if_pos he] at hl
        exact absurd hl (by simp)
      · rw [if_neg he] at hl
        simp only [List.map_cons, List.mem_cons] at hmem
        rcases hmem with h2 | h2
        · exact he (by simpa using h2.symm)
        · exact ih hl h2

/-- Helper: every dereferenced cell of a duplicate-free heap is
duplicate-free. -/
theorem Heap.get_nodup (h : Heap) (hc : ∀ c ∈ h.cells, c.Nodup) (r : Nat) :
    (h.get r).Nodup := by
  unfold Heap.get
  cases hl : h.cells[r]? with
  | some c => exact hc c (List.getElem?_mem hl)
  | none => exact List.nodup_nil

/-- Helper: overwriting a cell with a duplicate-free list preserves the heap
invariant. -/
theorem Heap.set_nodup (h : Heap) (q : Nat) (v : List String)
    (hc : ∀ c ∈ h.cells, c.Nodup) (hv : v.Nodup) :
    ∀ c ∈ (h.set q v).cells, c.Nodup := by
  intro c hcmem
  rcases List.mem_or_eq_of_mem_set hcmem with h1 | h1
  · exact hc c h1
  · rw [h1]
    exact hv

/-- Helper: the member-guarded append loop of the merge branch never creates
a duplicate inside any cell. -/
theorem mergeInto_nodup (q : Nat) :
    ∀ (xs : List String) (h : Heap), (∀ c ∈ h.cells, c.Nodup) →
      ∀ c ∈ (mergeInto h q xs).cells, c.Nodup := by
  intro xs
  induction xs with
  | nil =>
    intro h hc
    exact hc
  | cons i rest ih =>
    intro h hc
    unfold mergeInto
    by_cases hmem : i ∈ h.get q
    · rw [if_pos hmem]
      exact ih h hc
    · rw [if_neg hmem]
      refine ih _ (Heap.set_nodup h q (h.get q ++ [i]) hc ?_)
      rw [← List.concat_eq_append]
      exact List.Nodup.concat hmem (Heap.get_nodup h hc q)

/-- Helper: the protein loop preserves duplicate-free cells and
duplicate-free protein keys. -/
theorem procProteins_inv (r : Nat) :
    ∀ (links : List String) (h : Heap) (pr : List (String × Nat)),
      (∀ c ∈ h.cells, c.Nodup) → (pr.map Prod.fst).Nodup →
      (∀ c ∈ (procProteins r links h pr).1.cells, c.Nodup)
      ∧ ((procProteins r links h pr).2.map Prod.fst).Nodup := by
  intro links
  induction links with
  | nil =>
    intro h pr hc hk
    exact ⟨hc, hk⟩
  | cons p rest ih =>
    intro h pr hc hk
    unfold procProteins
    cases hl : pyLookup pr p with
    | none =>
      simp only [hl]
      refine ih h (pr ++ [(p, r)]) hc ?_
      simp only [List.map_append, List.map_cons, List.map_nil]
      rw [← List.concat_eq_append]
      exact List.Nodup.concat (pyLookup_none p pr hl) hk
    | some q =>
      simp only [hl]
      exact ih (mergeInto h q (h.get r)) pr (mergeInto_nodup q (h.get r) h hc) hk

/-- Helper: the protein-dict build preserves duplicate-free cells and
duplicate-free protein keys. -/
theorem buildProtDict_inv :
    ∀ (recs : List TaxRecord) (h : Heap) (sr pr : List (String × Nat)),
      (∀ c ∈ h.cells, c.Nodup) → (pr.map Prod.fst).Nodup →
      ∀ (h2 : Heap) (sr2 pr2 : List (String × Nat)),
        buildProtDict recs h sr pr = .ok (h2, sr2, pr2) →
        (∀ c ∈ h2.cells, c.Nodup) ∧ (pr2.map Prod.fst).Nodup := by
  intro recs
  induction recs with
  | nil =>
    intro h sr pr hc hk h2 sr2 pr2 hb
    simp only [buildProtDict] at hb
    injection hb with hb
    injection hb with hbA hb
    injection hb with hbB hbC
    subst hbA
    subst hbC
    exact ⟨hc, hk⟩
  | cons rec rest ih =>
    intro h sr pr hc hk h2 sr2 pr2 hb
    unfold buildProtDict at hb
    cases hi : pyIdx rec.idList 0 with
    | error e =>
      simp only [hi] at hb
      exact absurd hb (by simp)
    | ok seqId =>
      simp only [hi] at hb
      cases hs : pyLookup sr seqId with
      | some r =>
        simp only [hs] at hb
        cases hl : rec.linkSetDb with
        | nil =>
          simp only [hl] at hb
          exact ih h sr pr hc hk h2 sr2 pr2 hb
        | cons links lrest =>
          simp only [hl] at hb
          rcases hproc : procProteins r links h pr with ⟨h3, pr3⟩
          rw [hproc] at hb
          have hinv := procProteins_inv r links h pr hc hk
          rw [hproc] at hinv
          exact ih h3 sr pr3 hinv.1 hinv.2 h2 sr2 pr2 hb
      | none =>
        simp only [hs, Heap.alloc] at hb
        have hc2 : ∀ c ∈ h.cells ++ [[]], c.Nodup := by
          intro c hc3
          rcases List.mem_append.mp hc3 with h3 | h3
          · exact hc c h3
          · rw [List.mem_singleton.mp h3]
            exact List.nodup_nil
        cases hl : rec.linkSetDb with
        | nil =>
          simp only [hl] at hb
          exact ih ⟨h.cells ++ [[]]⟩ (sr ++ [(seqId, h.cells.length)]) pr hc2 hk h2 sr2 pr2 hb
        | cons links lrest =>
          simp only [hl] at hb
          rcases hproc : procProteins h.cells.length links ⟨h.cells ++ [[]]⟩ pr with ⟨h3, pr3⟩
          rw [hproc] at hb
          have hinv := procProteins_inv h.cells.length links ⟨h.cells ++ [[]]⟩ pr hc2 hk
          rw [hproc] at hinv
          exact ih h3 (sr ++ [(seqId, h.cells.length)]) pr3 hinv.1 hinv.2 h2 sr2 pr2 hb

/-- Helper: the protein loop preserves duplicate-free protein keys with no
assumption on the heap, because a protein is appended only when its key is
absent and the merge branch never touches the key list. -/
theorem procProteins_keys (r : Nat) :
    ∀ (links : List String) (h : Heap) (pr : List (String × Nat)),
      (pr.map Prod.fst).Nodup → ((procProteins r links h pr).2.map Prod.fst).Nodup := by
  intro links
  induction links with
  | nil =>
    intro h pr hk
    exact hk
  | cons p rest ih =>
    intro h pr hk
    unfold procProteins
    cases hl : pyLookup pr p with
    | none =>
      simp only [hl]
      refine ih h (pr ++ [(p, r)]) ?_
      simp only [List.map_append, List.map_cons, List.map_nil]
      rw [← List.concat_eq_append]
      exact List.Nodup.concat (pyLookup_none p pr hl) hk
    | some q =>
      simp only [hl]
      exact ih (mergeInto h q (h.get r)) pr hk

/-- Helper: the protein-dict build preserves duplicate-free protein keys
unconditionally, duplicated heap cells included. -/
theorem buildProtDict_keys :
    ∀ (recs : List TaxRecord) (h : Heap) (sr pr : List (String × Nat)),
      (pr.map Prod.fst).Nodup →
      ∀ (h2 : Heap) (sr2 pr2 : List (String × Nat)),
        buildProtDict recs h sr pr = .ok (h2, sr2, pr2) → (pr2.map Prod.fst).Nodup := by
  intro recs
  induction recs with
  | nil =>
    intro h sr pr hk h2 sr2 pr2 hb
    simp only [buildProtDict] at hb
    injection hb with hb
    injection hb with hbA hb
    injection hb with hbB hbC
    subst hbC
    exact hk
  | cons rec rest ih =>
    intro h sr pr hk h2 sr2 pr2 hb
    unfold buildProtDict at hb
    cases hi : pyIdx rec.idList 0 with
    | error e =>
      simp only [hi] at hb
      exact absurd hb (by simp)
    | ok seqId =>
      simp only [hi] at hb
      cases hs : pyLookup sr seqId with
      | some r =>
        simp only [hs] at hb
        cases hl : rec.linkSetDb with
        | nil =>
          simp only [hl] at hb
          exact ih h sr pr hk h2 sr2 pr2 hb
        | cons links lrest =>
          simp only [hl] at hb
          rcases hproc : procProteins r links h pr with ⟨h3, pr3⟩
          rw [hproc] at hb
          have hkeys := procProteins_keys r links h pr hk
          rw [hproc] at hkeys
          exact ih h3 sr pr3 hkeys h2 sr2 pr2 hb
      | none =>
        simp only [hs, Heap.alloc] at hb
        cases hl : rec.linkSetDb with
        | nil =>
          simp only [hl] at hb
          exact ih ⟨h.cells ++ [[]]⟩ (sr ++ [(seqId, h.cells.length)]) pr hk h2 sr2 pr2 hb
        | cons links lrest =>
          simp only [hl] at hb
          rcases hproc : procProteins h.cells.length links ⟨h.cells ++ [[]]⟩ pr with ⟨h3, pr3⟩
          rw [hproc] at hb
          have hkeys := procProteins_keys h.cells.length links ⟨h.cells ++ [[]]⟩ pr hk
          rw [hproc] at hkeys
          exact ih h3 (sr ++ [(seqId, h.cells.length)]) pr3 hkeys h2 sr2 pr2 hb

/-- C5 amended: for every run of the protein stage as main invokes it
(starting with no proteins recorded), every protein id appears exactly once
among the keys of the resulting protein dict — unconditionally, pathological
duplicated sequence lists included — hence exactly once in Output 2, in
first-encountered order; and when additionally the heap holds no duplicated
assembly id inside any sequence list when the stage starts, every cell stays
duplicate-free and every emitted assembly list is duplicate-free.  A protein
first seen via a sequence whose list already carries a repeated assembly id,
however, inherits the duplicates verbatim (see the counterexample). -/
theorem c5_amended_nodup (recs : List TaxRecord) (h : Heap) (sr : List (String × Nat))
    (h2 : Heap) (sr2 pr2 : List (String × Nat))
    (hb : buildProtDict recs h sr [] = .ok (h2, sr2, pr2)) :
    (pr2.map Prod.fst).Nodup
    ∧ ((∀ c ∈ h.cells, c.Nodup) →
        (∀ c ∈ h2.cells, c.Nodup) ∧ ∀ e ∈ materialize h2 pr2, (Prod.snd e).Nodup) := by
  constructor
  · exact buildProtDict_keys recs h sr [] (by simp) h2 sr2 pr2 hb
  · intro hc
    obtain ⟨hcells, _⟩ := buildProtDict_inv recs h sr [] hc (by simp) h2 sr2 pr2 hb
    refine ⟨hcells, ?_⟩
    intro e he
    rw [materialize, List.mem_map] at he
    obtain ⟨x, hx, hex⟩ := he
    rw [← hex]
    exact Heap.get_nodup h2 hcells x.2

/-- C5 amended witness: a concrete protein-stage run starting from the
pathological duplicated sequence list A,A still has duplicate-free protein
keys, and a second run from a duplicate-free heap additionally has
duplicate-free cells and emitted lists. -/
theorem c5_amended_nodup_witness :
    (([("P", 0)] : List (String × Nat)).map Prod.fst).Nodup
    ∧ (∀ c ∈ (⟨[["A1"]]⟩ : Heap).cells, c.Nodup)
    ∧ (∀ e ∈ materialize ⟨[["A1"]]⟩ [("P", 0)], (Prod.snd e).Nodup) := by
  have hdup := c5_amended_nodup [⟨["S"], [["P"]]⟩] ⟨[["A", "A"]]⟩ [("S", 0)]
    ⟨[["A", "A"]]⟩ [("S", 0)] [("P", 0)] (by decide)
  have hok := c5_amended_nodup [⟨["S"], [["P"]]⟩] ⟨[["A1"]]⟩ [("S", 0)]
    ⟨[["A1"]]⟩ [("S", 0)] [("P", 0)] (by decide)
  exact ⟨hdup.1, (hok.2 (by decide)).1, (hok.2 (by decide)).2⟩

end Metapep
